import Mathlib

/-!
Shallow embedding of the drawer-to-baseplate tiling planner in
`src/tools/drawer.py` of the gridfinity repository.

Conventions of the embedding:

* Python floats are modelled as exact rationals (`ℚ`); unit counts, which the
  source obtains with `int(x // y)` and `math.ceil`, are integers (`ℤ`).
* Python's float `//` is `Int.floor` of the exact quotient, integer `//` and
  `%` are `Int.fdiv` / `Int.fmod` (floor division, as in Python).
* A Python runtime error (`ZeroDivisionError`) and non-termination of a
  `while` loop are both modelled as `none`.  The `while remaining > 0` loops
  of `_optimize_baseplate_layout` are given an explicit fuel argument; the
  fuel passed by `optimize_baseplate_layout` is sufficient exactly when the
  Python loop terminates (each iteration removes `min(remaining, max_units)`,
  which is at least 1 when `max_units ≥ 1`, and nothing when `max_units ≤ 0`).
* The printer-bed globals `PRINTER_BED_WIDTH`/`PRINTER_BED_DEPTH` (settable
  from the command line) and the config field `unit_size` are threaded as
  explicit parameters.
-/

namespace GridfinityDrawer

/-- Default `unit_size` of `GridfinityConfig` (src/gridfinity/config.py). -/
def default_unit_size : ℚ := 42

/-- Default printer bed width, `PRINTER_BED_WIDTH` in drawer.py. -/
def printer_bed_width : ℚ := 256

/-- Default printer bed depth, `PRINTER_BED_DEPTH` in drawer.py. -/
def printer_bed_depth : ℚ := 256

/-- The `while remaining > 0` loop of strategies 2 and 3 in
`_optimize_baseplate_layout` (drawer.py lines 123-127 and 133-137): repeatedly
emit `min remaining max_units` and subtract it from `remaining`.  `fuel`
bounds the number of iterations; `none` means the loop did not finish within
`fuel` iterations (with unbounded fuel this models non-termination). -/
def greedy_split (max_units : ℤ) : ℕ → ℤ → Option (List ℤ)
  | 0, remaining => if 0 < remaining then none else some []
  | fuel + 1, remaining =>
    if 0 < remaining then
      (greedy_split max_units fuel (remaining - min remaining max_units)).map
        (fun l => min remaining max_units :: l)
    else some []

/-- Embedding of `_optimize_baseplate_layout` (drawer.py lines 89-167).

Strategy 1: single plate when the whole drawer fits on the bed.
Strategy 2/3: greedy one-axis split (the fuel `units.toNat` is enough whenever
the Python loop terminates; when `max_units ≤ 0` and `units > 0` the Python
loop runs forever and this returns `none` — see `greedy_split_nonpos_max`).
Strategy 4: two-dimensional grid.  `num_plates_x = 0` (resp. `_y`) models the
`ZeroDivisionError` Python raises either at `units_x / max_units_x` when
`max_units_x == 0` (then the rational quotient is 0 and its ceiling is 0) or
at `units_x // num_plates_x`. -/
def optimize_baseplate_layout (units_x units_y max_units_x max_units_y : ℤ) :
    Option (List (ℤ × ℤ)) :=
  if units_x ≤ max_units_x ∧ units_y ≤ max_units_y then
    some [(units_x, units_y)]
  else if units_y ≤ max_units_y then
    (greedy_split max_units_x units_x.toNat units_x).map
      (List.map (fun x => (x, units_y)))
  else if units_x ≤ max_units_x then
    (greedy_split max_units_y units_y.toNat units_y).map
      (List.map (fun y => (units_x, y)))
  else
    let num_plates_x : ℤ := ⌈(units_x : ℚ) / (max_units_x : ℚ)⌉
    let num_plates_y : ℤ := ⌈(units_y : ℚ) / (max_units_y : ℚ)⌉
    if num_plates_x = 0 ∨ num_plates_y = 0 then none
    else
      let base_size_x := units_x.fdiv num_plates_x
      let remainder_x := units_x.fmod num_plates_x
      let base_size_y := units_y.fdiv num_plates_y
      let remainder_y := units_y.fmod num_plates_y
      some ((List.range num_plates_y.toNat).flatMap (fun (row : ℕ) =>
        (List.range num_plates_x.toNat).map (fun (col : ℕ) =>
          (base_size_x + (if (col : ℤ) < remainder_x then 1 else 0),
           base_size_y + (if (row : ℤ) < remainder_y then 1 else 0)))))

/-- The dictionary returned by `calculate_baseplates`. -/
structure Layout where
  baseplates : List (ℤ × ℤ)
  gap_x : ℚ
  gap_y : ℚ
  units_x : ℤ
  units_y : ℤ

/-- Embedding of `calculate_baseplates` (drawer.py lines 26-86), with the printer-bed
globals and the config `unit_size` as explicit parameters.  `unit_size = 0`
models the `ZeroDivisionError` of the first float floor-division. -/
def calculate_baseplates (drawer_width drawer_depth bed_width bed_depth unit_size : ℚ) :
    Option Layout :=
  if unit_size = 0 then none
  else
    let units_x : ℤ := ⌊drawer_width / unit_size⌋
    let units_y : ℤ := ⌊drawer_depth / unit_size⌋
    let gap_x : ℚ := drawer_width - units_x * unit_size
    let gap_y : ℚ := drawer_depth - units_y * unit_size
    let max_units_x : ℤ := ⌊bed_width / unit_size⌋
    let max_units_y : ℤ := ⌊bed_depth / unit_size⌋
    (optimize_baseplate_layout units_x units_y max_units_x max_units_y).map
      (fun bs => ⟨bs, gap_x, gap_y, units_x, units_y⟩)

/-- Embedding of `calculate_spacer_dimensions` (drawer.py lines 192-239).  Returns the
`(width, depth)` pairs of the spacer pieces.  `none` models the
`ZeroDivisionError` raised when `max_length == 0`, when
`gap * max_aspect == 0` (so in particular for a zero gap), or when
`num_pieces == 0` (then `length / num_pieces` divides by zero; this happens
for `length ≤ 0`).  A negative `num_pieces` makes Python's
`range(num_pieces)` empty, hence `List.replicate num_pieces.toNat`. -/
def calculate_spacer_dimensions (gap length : ℚ) (max_length : ℚ := 150)
    (max_aspect : ℚ := 5) : Option (List (ℚ × ℚ)) :=
  if max_length = 0 then none
  else
    let num_pieces_length : ℤ := ⌈length / max_length⌉
    let max_length_by_aspect : ℚ := gap * max_aspect
    if max_length_by_aspect = 0 then none
    else
      let num_pieces_by_aspect : ℤ := ⌈length / max_length_by_aspect⌉
      let num_pieces : ℤ := max num_pieces_length num_pieces_by_aspect
      if num_pieces = 1 then some [(gap, length)]
      else if num_pieces = 0 then none
      else some (List.replicate num_pieces.toNat (gap, length / (num_pieces : ℚ)))

/-- The dimension tuples handed to the geometry collaborator by
`generate_drawer_files`: the plate unit counts, and the `(width, depth)`
arguments of each `generate_spacer` call, per axis. -/
structure DrawerFiles where
  baseplates : List (ℤ × ℤ)
  x_spacers : List (ℚ × ℚ)
  y_spacers : List (ℚ × ℚ)

/-- The planning core of `generate_drawer_files` (drawer.py lines 242-322):
the baseplate layout, then — for each axis whose gap exceeds 0.5 mm — the
spacer dimensions.  The X-direction gap is filled over the tiled depth
`units_y * unit_size` (line 290), the Y-direction gap over the full
`drawer_width` (line 305), and for Y-direction spacers the `(width, depth)`
pair is swapped before the `generate_spacer(depth, width)` call (line 310).
File export and geometry construction are external and omitted. -/
def generate_drawer_files (drawer_width drawer_depth bed_width bed_depth unit_size : ℚ) :
    Option DrawerFiles :=
  match calculate_baseplates drawer_width drawer_depth bed_width bed_depth unit_size with
  | none => none
  | some layout =>
    match (if 1/2 < layout.gap_x then
        calculate_spacer_dimensions layout.gap_x ((layout.units_y : ℚ) * unit_size)
      else some []) with
    | none => none
    | some x_dims =>
      match (if 1/2 < layout.gap_y then
          calculate_spacer_dimensions layout.gap_y drawer_width
        else some []) with
      | none => none
      | some y_dims =>
        some ⟨layout.baseplates, x_dims, y_dims.map (fun p => (p.2, p.1))⟩

/-! ### Helper lemmas about the greedy one-axis split -/

/-- Whatever the fuel, a non-positive `remaining` makes the loop exit at once
with no chunks. -/
lemma greedy_split_of_nonpos (max_units : ℤ) (fuel : ℕ) (remaining : ℤ)
    (hr : ¬ 0 < remaining) : greedy_split max_units fuel remaining = some [] := by
  cases fuel <;> simp [greedy_split, hr]

/-- A greedy-split loop with `max_units ≤ 0` and positive `remaining` never
terminates: no amount of fuel produces a result, because each iteration
subtracts `min remaining max_units ≤ 0`.  This is the infinite `while` loop
of strategies 2/3 of `_optimize_baseplate_layout` when the bed is smaller
than one grid unit. -/
lemma greedy_split_nonpos_max (max_units : ℤ) (hm : max_units ≤ 0) :
    ∀ (fuel : ℕ) (remaining : ℤ), 0 < remaining →
      greedy_split max_units fuel remaining = none := by
  intro fuel
  induction fuel with
  | zero => intro r hr; simp [greedy_split, hr]
  | succ f ih =>
    intro r hr
    have h1 : min r max_units = max_units := min_eq_right (by omega)
    have h2 : 0 < r - max_units := by omega
    simp [greedy_split, hr, h1, ih _ h2]

/-- Full characterization of the greedy one-axis split when at least one unit
fits on the bed: with fuel at least `remaining` the loop terminates, the
chunk emitted at position `i` is `min (remaining - i * max_units) max_units`,
the chunks sum to `remaining`, there are `⌈remaining / max_units⌉` of them,
and each lies between 1 and `max_units`. -/
lemma greedy_split_spec (max_units : ℤ) (hm : 1 ≤ max_units) :
    ∀ (fuel : ℕ) (remaining : ℤ), 0 ≤ remaining → remaining ≤ (fuel : ℤ) →
      ∃ l, greedy_split max_units fuel remaining = some l ∧
        l.sum = remaining ∧
        (l.length : ℤ) = ⌈(remaining : ℚ) / (max_units : ℚ)⌉ ∧
        (∀ i : ℕ, i < l.length →
          l[i]? = some (min (remaining - (i : ℤ) * max_units) max_units)) ∧
        (∀ x ∈ l, 1 ≤ x ∧ x ≤ max_units) := by
  have hm0 : (0 : ℚ) < (max_units : ℚ) := by exact_mod_cast (by omega : (0:ℤ) < max_units)
  intro fuel
  induction fuel with
  | zero =>
    intro r h0 hle
    have hr : r = 0 := by exact_mod_cast le_antisymm (by exact_mod_cast hle) h0
    subst hr
    exact ⟨[], greedy_split_of_nonpos _ _ _ (by omega), by simp, by simp, by simp, by simp⟩
  | succ f ih =>
    intro r h0 hle
    rcases lt_or_le 0 r with hpos | hnp
    · rcases le_or_lt r max_units with hrm | hrm
      · -- last chunk: the whole remaining fits
        have hc : min r max_units = r := min_eq_left hrm
        have hrest : greedy_split max_units f (r - min r max_units) = some [] := by
          rw [hc]; exact greedy_split_of_nonpos _ _ _ (by omega)
        have hceil : ⌈(r : ℚ) / (max_units : ℚ)⌉ = 1 := by
          rw [Int.ceil_eq_iff]
          constructor
          · push_cast
            simpa using div_pos (by exact_mod_cast hpos) hm0
          · push_cast
            rw [div_le_one hm0]
            exact_mod_cast hrm
        refine ⟨[r], ?_, by simp, by simp [hceil], ?_, ?_⟩
        · rw [greedy_split, if_pos hpos, hrest, hc]; rfl
        · intro i hi
          simp only [List.length_singleton] at hi
          interval_cases i
          simp [hc]
        · intro x hx
          simp only [List.mem_singleton] at hx
          subst hx
          exact ⟨by omega, hrm⟩
      · -- a full-width chunk, then recurse
        have hc : min r max_units = max_units := min_eq_right hrm.le
        obtain ⟨l', heq', hsum', hlen', hidx', hmem'⟩ :=
          ih (r - min r max_units) (by omega) (by push_cast at hle ⊢; omega)
        refine ⟨max_units :: l', ?_, ?_, ?_, ?_, ?_⟩
        · rw [greedy_split, if_pos hpos, heq', hc]; rfl
        · simp only [List.sum_cons]
          rw [hc] at hsum'
          omega
        · -- one more piece than for `remaining - max_units`
          rw [hc] at hlen'
          have hq : ⌈(r : ℚ) / (max_units : ℚ)⌉
              = ⌈((r - max_units : ℤ) : ℚ) / (max_units : ℚ)⌉ + 1 := by
            rw [← Int.ceil_add_one]
            congr 1
            push_cast
            field_simp
          simp only [List.length_cons]
          rw [hq]
          push_cast at hlen' ⊢
          omega
        · intro i hi
          cases i with
          | zero => simp [hc]
          | succ j =>
            simp only [List.length_cons] at hi
            have hj := hidx' j (by omega)
            rw [hc] at hj
            simp only [List.getElem?_cons_succ, hj]
            congr 2
            push_cast
            ring
        · intro x hx
          rcases List.mem_cons.mp hx with h | h
          · subst h; exact ⟨hm, le_refl _⟩
          · exact hmem' x h
    · -- loop body never entered
      have hr : r = 0 := by omega
      subst hr
      exact ⟨[], greedy_split_of_nonpos _ _ _ (by omega), by simp, by simp, by simp, by simp⟩

/-! ### Helper lemmas about the nearly even two-dimensional split -/

lemma sum_map_const_add (a : ℤ) (g : ℕ → ℤ) (l : List ℕ) :
    (l.map (fun c => a + g c)).sum = (l.length : ℤ) * a + (l.map g).sum := by
  induction l with
  | nil => simp
  | cons x xs ih =>
    simp only [List.map_cons, List.sum_cons, List.length_cons, ih]
    push_cast
    ring

lemma sum_map_indicator (r : ℤ) (h0 : 0 ≤ r) :
    ∀ n : ℕ, r ≤ (n : ℤ) →
      ((List.range n).map (fun (c : ℕ) => if (c : ℤ) < r then (1 : ℤ) else 0)).sum = r := by
  intro n
  induction n with
  | zero =>
    intro hn
    have : r = 0 := by exact_mod_cast le_antisymm (by exact_mod_cast hn) h0
    simp [this]
  | succ k ih =>
    intro hn
    rw [List.range_succ, List.map_append, List.sum_append]
    rcases le_or_lt r (k : ℤ) with h | h
    · rw [ih h]
      simp [not_lt.mpr h]
    · have hr : r = (k : ℤ) + 1 := by omega
      have hall : (List.range k).map (fun (c : ℕ) => if (c : ℤ) < r then (1 : ℤ) else 0)
          = (List.range k).map (fun (_ : ℕ) => (1 : ℤ)) := by
        apply List.map_congr_left
        intro c hc
        rw [List.mem_range] at hc
        have : (c : ℤ) < r := by omega
        simp [this]
      rw [hall]
      have hlt : (k : ℤ) < r := h
      simp [List.map_const', hlt, hr]

/-- Splitting `u` into `k` nearly equal integer parts, `base + 1` for the
first `u.fmod k` of them and `base = u.fdiv k` for the rest, sums back to
`u`. -/
lemma even_split_sum (u k : ℤ) (hk : 0 < k) :
    ((List.range k.toNat).map (fun (c : ℕ) =>
      u.fdiv k + (if (c : ℤ) < u.fmod k then (1 : ℤ) else 0))).sum = u := by
  rw [sum_map_const_add, Int.fdiv_eq_ediv _ hk.le, Int.fmod_eq_emod _ hk.le]
  have hmod0 : 0 ≤ u % k := Int.emod_nonneg u (by omega)
  have hmodk : u % k < k := Int.emod_lt_of_pos u hk
  rw [sum_map_indicator (u % k) hmod0 k.toNat (by rw [Int.toNat_of_nonneg hk.le]; omega)]
  simp only [List.length_range]
  rw [Int.toNat_of_nonneg hk.le]
  have := Int.ediv_add_emod u k
  omega

lemma one_le_ceil_div {u m : ℤ} (hm : 0 < m) (hu : 0 < u) :
    1 ≤ ⌈(u : ℚ) / (m : ℚ)⌉ := by
  have h : (0 : ℚ) < (u : ℚ) / (m : ℚ) :=
    div_pos (by exact_mod_cast hu) (by exact_mod_cast hm)
  have := Int.lt_ceil.mpr (by exact_mod_cast h : ((0 : ℤ) : ℚ) < (u : ℚ) / (m : ℚ))
  omega

lemma ceil_div_le_self {u m : ℤ} (hm : 1 ≤ m) (hu : 0 ≤ u) :
    ⌈(u : ℚ) / (m : ℚ)⌉ ≤ u := by
  apply Int.ceil_le.mpr
  have h1 : (0 : ℚ) ≤ (u : ℚ) := by exact_mod_cast hu
  have h2 : (1 : ℚ) ≤ (m : ℚ) := by exact_mod_cast hm
  exact div_le_self h1 h2

lemma le_ceil_div_mul {u m : ℤ} (hm : 0 < m) :
    u ≤ ⌈(u : ℚ) / (m : ℚ)⌉ * m := by
  have h := Int.le_ceil ((u : ℚ) / (m : ℚ))
  have hm' : (0 : ℚ) < (m : ℚ) := by exact_mod_cast hm
  rw [div_le_iff hm'] at h
  exact_mod_cast h

/-- Bounds on the pieces of the nearly even split used by strategy 4: when
`1 ≤ max_units < u` and the piece count is `⌈u / max_units⌉`, every piece
lies between 1 and `max_units`. -/
lemma even_split_piece_bounds {u m : ℤ} (hm : 1 ≤ m) (hu : m < u) (c : ℤ) (hc : 0 ≤ c) :
    1 ≤ u.fdiv ⌈(u : ℚ) / (m : ℚ)⌉
        + (if c < u.fmod ⌈(u : ℚ) / (m : ℚ)⌉ then (1 : ℤ) else 0) ∧
    u.fdiv ⌈(u : ℚ) / (m : ℚ)⌉
        + (if c < u.fmod ⌈(u : ℚ) / (m : ℚ)⌉ then (1 : ℤ) else 0) ≤ m := by
  set k := ⌈(u : ℚ) / (m : ℚ)⌉ with hkdef
  have hu0 : 0 < u := by omega
  have hkpos : 0 < k := by have := one_le_ceil_div (by omega : (0:ℤ) < m) hu0; omega
  have hku : k ≤ u := ceil_div_le_self hm hu0.le
  have hukm : u ≤ k * m := le_ceil_div_mul (by omega)
  rw [Int.fdiv_eq_ediv _ hkpos.le, Int.fmod_eq_emod _ hkpos.le]
  have hdiv : k * (u / k) + u % k = u := Int.ediv_add_emod u k
  have hmod0 : 0 ≤ u % k := Int.emod_nonneg u (by omega)
  have hmodk : u % k < k := Int.emod_lt_of_pos u hkpos
  have hb1 : 1 ≤ u / k := by
    rw [Int.le_ediv_iff_mul_le hkpos, one_mul]
    exact hku
  have hbm : u / k ≤ m := by
    have h2 : u / k ≤ k * m / k := Int.ediv_le_ediv hkpos hukm
    rwa [Int.mul_ediv_cancel_left m (by omega : k ≠ 0)] at h2
  constructor
  · split <;> omega
  · split
    · rename_i hlt
      rcases eq_or_lt_of_le hbm with hbe | hblt
      · exfalso
        rw [hbe] at hdiv
        have : 0 < u % k := by omega
        linarith
      · omega
    · omega

/-- Row-major double iteration flattened to a single range, with the row and
column recovered from the flat index by division and remainder. -/
lemma flatMap_range_range {α : Type} (b : ℕ) (f : ℕ → ℕ → α) :
    ∀ a : ℕ, (List.range a).flatMap (fun (row : ℕ) => (List.range b).map (f row)) =
      (List.range (a * b)).map (fun (i : ℕ) => f (i / b) (i % b)) := by
  intro a
  induction a with
  | zero => simp
  | succ k ih =>
    rw [List.range_succ, List.flatMap_append, ih, Nat.succ_mul, List.range_add,
      List.map_append]
    congr 1
    · simp only [List.flatMap_cons, List.flatMap_nil, List.append_nil, List.map_map]
      apply List.map_congr_left
      intro i hi
      rw [List.mem_range] at hi
      simp only [Function.comp_apply]
      have h1 : k * b + i = i + b * k := by ring
      rw [h1, Nat.add_mul_div_left _ _ (by omega : 0 < b), Nat.add_mul_mod_self_left,
        Nat.div_eq_of_lt hi, Nat.mod_eq_of_lt hi, Nat.zero_add]

/-- Unfolding of strategy 4 of `_optimize_baseplate_layout` when neither axis
fits the bed and the bed holds at least one unit per axis. -/
lemma optimize_tier4 {units_x units_y max_units_x max_units_y : ℤ}
    (hmx : 1 ≤ max_units_x) (hmy : 1 ≤ max_units_y)
    (hx : max_units_x < units_x) (hy : max_units_y < units_y) :
    optimize_baseplate_layout units_x units_y max_units_x max_units_y =
      some ((List.range (⌈(units_y : ℚ) / (max_units_y : ℚ)⌉.toNat)).flatMap
        (fun (row : ℕ) =>
          (List.range (⌈(units_x : ℚ) / (max_units_x : ℚ)⌉.toNat)).map
            (fun (col : ℕ) =>
              (units_x.fdiv ⌈(units_x : ℚ) / (max_units_x : ℚ)⌉
                 + (if (col : ℤ) < units_x.fmod ⌈(units_x : ℚ) / (max_units_x : ℚ)⌉
                    then 1 else 0),
               units_y.fdiv ⌈(units_y : ℚ) / (max_units_y : ℚ)⌉
                 + (if (row : ℤ) < units_y.fmod ⌈(units_y : ℚ) / (max_units_y : ℚ)⌉
                    then 1 else 0))))) := by
  have hpx : 0 < ⌈(units_x : ℚ) / (max_units_x : ℚ)⌉ := by
    have := one_le_ceil_div (by omega : (0:ℤ) < max_units_x) (by omega : (0:ℤ) < units_x)
    omega
  have hpy : 0 < ⌈(units_y : ℚ) / (max_units_y : ℚ)⌉ := by
    have := one_le_ceil_div (by omega : (0:ℤ) < max_units_y) (by omega : (0:ℤ) < units_y)
    omega
  rw [optimize_baseplate_layout]
  rw [if_neg (by omega), if_neg (by omega), if_neg (by omega)]
  rw [if_neg (by omega)]

/-- Unfolding of strategy 1 of `_optimize_baseplate_layout`. -/
lemma optimize_tier1 {units_x units_y max_units_x max_units_y : ℤ}
    (hx : units_x ≤ max_units_x) (hy : units_y ≤ max_units_y) :
    optimize_baseplate_layout units_x units_y max_units_x max_units_y
      = some [(units_x, units_y)] := by
  rw [optimize_baseplate_layout, if_pos ⟨hx, hy⟩]

/-- Unfolding of `calculate_baseplates` for a non-zero unit size. -/
lemma calculate_baseplates_eq {drawer_width drawer_depth bed_width bed_depth unit_size : ℚ}
    (hu : unit_size ≠ 0) :
    calculate_baseplates drawer_width drawer_depth bed_width bed_depth unit_size
      = (optimize_baseplate_layout ⌊drawer_width / unit_size⌋ ⌊drawer_depth / unit_size⌋
          ⌊bed_width / unit_size⌋ ⌊bed_depth / unit_size⌋).map
        (fun bs => ⟨bs, drawer_width - ⌊drawer_width / unit_size⌋ * unit_size,
          drawer_depth - ⌊drawer_depth / unit_size⌋ * unit_size,
          ⌊drawer_width / unit_size⌋, ⌊drawer_depth / unit_size⌋⟩) := by
  rw [calculate_baseplates, if_neg hu]

/-! ### Concrete evaluations used by the claim theorems -/

/-- Spec scenario 1: `Plan(500, 300, 256, 256, 42)` reaches strategy 4 and
emits the plates (6,4),(5,4),(6,3),(5,3) row-major, with gaps (38, 6). -/
lemma scenario1_eval :
    calculate_baseplates 500 300 256 256 42
      = some ⟨[(6, 4), (5, 4), (6, 3), (5, 3)], 38, 6, 11, 7⟩ := by
  have h1 : ⌊(500 : ℚ) / 42⌋ = 11 := by rw [Int.floor_eq_iff]; norm_num
  have h2 : ⌊(300 : ℚ) / 42⌋ = 7 := by rw [Int.floor_eq_iff]; norm_num
  have h3 : ⌊(256 : ℚ) / 42⌋ = 6 := by rw [Int.floor_eq_iff]; norm_num
  have h4 : ⌈((11 : ℤ) : ℚ) / ((6 : ℤ) : ℚ)⌉ = 2 := by
    rw [Int.ceil_eq_iff]; push_cast; norm_num
  have h5 : ⌈((7 : ℤ) : ℚ) / ((6 : ℤ) : ℚ)⌉ = 2 := by
    rw [Int.ceil_eq_iff]; push_cast; norm_num
  rw [calculate_baseplates, if_neg (by norm_num)]
  simp only [h1, h2, h3, optimize_baseplate_layout, h4, h5]
  norm_num [Layout.mk.injEq]
  decide

/-! ### The claim theorems -/

/-- Claim C1 (tier-4 two-dimensional split): whenever neither axis fits the bed
alone (`maxUnits < units` on both axes, with `maxUnitsX, maxUnitsY ≥ 1`),
strategy 4 emits exactly `numPlatesY * numPlatesX` plates in row-major order,
with `numPlates = ⌈units / maxUnits⌉` per axis: the plate at flat index `i`
lies in column `i % numPlatesX` and row `i / numPlatesX`, its X size is
`unitsX / numPlatesX + 1` for the first `unitsX % numPlatesX` columns and
`unitsX / numPlatesX` otherwise, and analogously for Y over rows; and in
particular `Plan(500, 300, 256, 256, 42)` yields the plates
(6,4),(5,4),(6,3),(5,3) in that order. -/
theorem plan_tier4_row_major (units_x units_y max_units_x max_units_y : ℤ)
    (hmx : 1 ≤ max_units_x) (hmy : 1 ≤ max_units_y)
    (hx : max_units_x < units_x) (hy : max_units_y < units_y) :
    (∃ plates, optimize_baseplate_layout units_x units_y max_units_x max_units_y
        = some plates ∧
      plates.length
        = ⌈(units_y : ℚ) / (max_units_y : ℚ)⌉.toNat
            * ⌈(units_x : ℚ) / (max_units_x : ℚ)⌉.toNat ∧
      ∀ i : ℕ, i < plates.length →
        plates[i]? = some
          (units_x / ⌈(units_x : ℚ) / (max_units_x : ℚ)⌉
             + (if ((i % ⌈(units_x : ℚ) / (max_units_x : ℚ)⌉.toNat : ℕ) : ℤ)
                    < units_x % ⌈(units_x : ℚ) / (max_units_x : ℚ)⌉ then 1 else 0),
           units_y / ⌈(units_y : ℚ) / (max_units_y : ℚ)⌉
             + (if ((i / ⌈(units_x : ℚ) / (max_units_x : ℚ)⌉.toNat : ℕ) : ℤ)
                    < units_y % ⌈(units_y : ℚ) / (max_units_y : ℚ)⌉ then 1 else 0))) ∧
    calculate_baseplates 500 300 256 256 42
      = some ⟨[(6, 4), (5, 4), (6, 3), (5, 3)], 38, 6, 11, 7⟩ := by
  refine ⟨?_, scenario1_eval⟩
  have hpx : 0 < ⌈(units_x : ℚ) / (max_units_x : ℚ)⌉ := by
    have := one_le_ceil_div (by omega : (0:ℤ) < max_units_x) (by omega : (0:ℤ) < units_x)
    omega
  have hpy : 0 < ⌈(units_y : ℚ) / (max_units_y : ℚ)⌉ := by
    have := one_le_ceil_div (by omega : (0:ℤ) < max_units_y) (by omega : (0:ℤ) < units_y)
    omega
  rw [optimize_tier4 hmx hmy hx hy, flatMap_range_range]
  refine ⟨_, rfl, by rw [List.length_map, List.length_range], ?_⟩
  intro i hi
  simp only [List.length_map, List.length_range] at hi
  rw [List.getElem?_map, List.getElem?_range hi]
  simp only [Option.map_some']
  rw [Int.fdiv_eq_ediv _ hpx.le, Int.fmod_eq_emod _ hpx.le,
    Int.fdiv_eq_ediv _ hpy.le, Int.fmod_eq_emod _ hpy.le]

/-- Witness for `plan_tier4_row_major`, instantiated at spec scenario 1's
unit counts (units 11 × 7, bed capacity 6 × 6): four plates. -/
theorem plan_tier4_row_major_witness :
    ∃ plates, optimize_baseplate_layout 11 7 6 6 = some plates ∧
      plates.length = 4 := by
  obtain ⟨⟨plates, h1, h2, h3⟩, hs⟩ :=
    plan_tier4_row_major 11 7 6 6 (by norm_num) (by norm_num) (by norm_num) (by norm_num)
  refine ⟨plates, h1, ?_⟩
  rw [h2]
  have h4 : ⌈((11 : ℤ) : ℚ) / ((6 : ℤ) : ℚ)⌉ = 2 := by
    rw [Int.ceil_eq_iff]; push_cast; norm_num
  have h5 : ⌈((7 : ℤ) : ℚ) / ((6 : ℤ) : ℚ)⌉ = 2 := by
    rw [Int.ceil_eq_iff]; push_cast; norm_num
  rw [h4, h5]
  decide

/-- Spec scenario 2: `Plan(200, 100, 256, 256, 42)` fits on one plate. -/
lemma scenario2_eval :
    calculate_baseplates 200 100 256 256 42 = some ⟨[(4, 2)], 32, 16, 4, 2⟩ := by
  have h1 : ⌊(200 : ℚ) / 42⌋ = 4 := by rw [Int.floor_eq_iff]; norm_num
  have h2 : ⌊(100 : ℚ) / 42⌋ = 2 := by rw [Int.floor_eq_iff]; norm_num
  have h3 : ⌊(256 : ℚ) / 42⌋ = 6 := by rw [Int.floor_eq_iff]; norm_num
  rw [calculate_baseplates, if_neg (by norm_num)]
  simp only [h1, h2, h3, optimize_baseplate_layout]
  norm_num [Layout.mk.injEq]

/-- Claim C2 (tier-1 whole-drawer fit): whenever
`⌊drawerWidth/unit⌋ ≤ ⌊bedWidth/unit⌋` and
`⌊drawerDepth/unit⌋ ≤ ⌊bedDepth/unit⌋` (positive unit size), `Plan` returns
exactly one plate spec `(⌊drawerWidth/unit⌋, ⌊drawerDepth/unit⌋)`, with gaps
`drawerWidth - unitsX * unit` and `drawerDepth - unitsY * unit`; in
particular `Plan(200, 100, 256, 256, 42)` returns the single plate (4,2)
with gap (32, 16). -/
theorem plan_tier1_single_plate
    (drawer_width drawer_depth bed_width bed_depth unit_size : ℚ)
    (hu : 0 < unit_size)
    (hx : ⌊drawer_width / unit_size⌋ ≤ ⌊bed_width / unit_size⌋)
    (hy : ⌊drawer_depth / unit_size⌋ ≤ ⌊bed_depth / unit_size⌋) :
    calculate_baseplates drawer_width drawer_depth bed_width bed_depth unit_size
      = some ⟨[(⌊drawer_width / unit_size⌋, ⌊drawer_depth / unit_size⌋)],
          drawer_width - ⌊drawer_width / unit_size⌋ * unit_size,
          drawer_depth - ⌊drawer_depth / unit_size⌋ * unit_size,
          ⌊drawer_width / unit_size⌋, ⌊drawer_depth / unit_size⌋⟩ ∧
    calculate_baseplates 200 100 256 256 42 = some ⟨[(4, 2)], 32, 16, 4, 2⟩ := by
  refine ⟨?_, scenario2_eval⟩
  rw [calculate_baseplates_eq (ne_of_gt hu), optimize_tier1 hx hy]
  rfl

/-- Witness for `plan_tier1_single_plate`: spec scenario 2, obtained by
applying the theorem at `(200, 100, 256, 256, 42)`. -/
theorem plan_tier1_single_plate_witness :
    calculate_baseplates 200 100 256 256 42 = some ⟨[(4, 2)], 32, 16, 4, 2⟩ :=
  (plan_tier1_single_plate 200 100 256 256 42 (by norm_num)
    (by
      have h1 : ⌊(200 : ℚ) / 42⌋ = 4 := by rw [Int.floor_eq_iff]; norm_num
      have h3 : ⌊(256 : ℚ) / 42⌋ = 6 := by rw [Int.floor_eq_iff]; norm_num
      rw [h1, h3]; norm_num)
    (by
      have h2 : ⌊(100 : ℚ) / 42⌋ = 2 := by rw [Int.floor_eq_iff]; norm_num
      have h3 : ⌊(256 : ℚ) / 42⌋ = 6 := by rw [Int.floor_eq_iff]; norm_num
      rw [h2, h3]; norm_num)).2

/-- Claim C3 (tier-2/3 single-axis split): when only one axis exceeds the bed,
the layout splits that axis greedily: `⌈units / maxUnits⌉` chunks, the chunk
at position `i` being `min (units - i * maxUnits) maxUnits` (so every chunk
but the last equals `maxUnits`), chunk sizes summing to `units`, each chunk
paired with the full extent of the other axis. -/
theorem plan_single_axis_split (units_x units_y max_units_x max_units_y : ℤ)
    (hmx : 1 ≤ max_units_x) (hmy : 1 ≤ max_units_y) :
    (units_y ≤ max_units_y → max_units_x < units_x →
      ∃ chunks : List ℤ, optimize_baseplate_layout units_x units_y max_units_x max_units_y
          = some (chunks.map (fun x => (x, units_y))) ∧
        (chunks.length : ℤ) = ⌈(units_x : ℚ) / (max_units_x : ℚ)⌉ ∧
        chunks.sum = units_x ∧
        (∀ i : ℕ, i < chunks.length →
          chunks[i]? = some (min (units_x - (i : ℤ) * max_units_x) max_units_x)) ∧
        (∀ i : ℕ, i + 1 < chunks.length → chunks[i]? = some max_units_x)) ∧
    (units_x ≤ max_units_x → max_units_y < units_y →
      ∃ chunks : List ℤ, optimize_baseplate_layout units_x units_y max_units_x max_units_y
          = some (chunks.map (fun y => (units_x, y))) ∧
        (chunks.length : ℤ) = ⌈(units_y : ℚ) / (max_units_y : ℚ)⌉ ∧
        chunks.sum = units_y ∧
        (∀ i : ℕ, i < chunks.length →
          chunks[i]? = some (min (units_y - (i : ℤ) * max_units_y) max_units_y)) ∧
        (∀ i : ℕ, i + 1 < chunks.length → chunks[i]? = some max_units_y)) := by
  constructor
  · intro huy hxx
    obtain ⟨l, heq, hsum, hlen, hidx, hmem⟩ :=
      greedy_split_spec max_units_x hmx units_x.toNat units_x (by omega)
        (by rw [Int.toNat_of_nonneg (by omega : (0:ℤ) ≤ units_x)])
    refine ⟨l, ?_, hlen, hsum, hidx, ?_⟩
    · rw [optimize_baseplate_layout, if_neg (by omega), if_pos huy, heq]
      rfl
    · intro i hi
      have hfull : max_units_x ≤ units_x - (i : ℤ) * max_units_x := by
        have h1 : ((i : ℤ) + 1) < ⌈(units_x : ℚ) / (max_units_x : ℚ)⌉ := by omega
        have h2 : (((i : ℤ) + 1 : ℤ) : ℚ) < (units_x : ℚ) / (max_units_x : ℚ) :=
          Int.lt_ceil.mp h1
        rw [lt_div_iff (by exact_mod_cast (by omega : (0:ℤ) < max_units_x))] at h2
        have h3 : ((i : ℤ) + 1) * max_units_x < units_x := by exact_mod_cast h2
        nlinarith
      rw [hidx i (by omega), min_eq_right hfull]
  · intro hux hyy
    obtain ⟨l, heq, hsum, hlen, hidx, hmem⟩ :=
      greedy_split_spec max_units_y hmy units_y.toNat units_y (by omega)
        (by rw [Int.toNat_of_nonneg (by omega : (0:ℤ) ≤ units_y)])
    refine ⟨l, ?_, hlen, hsum, hidx, ?_⟩
    · rw [optimize_baseplate_layout, if_neg (by omega), if_neg (by omega),
        if_pos hux, heq]
      rfl
    · intro i hi
      have hfull : max_units_y ≤ units_y - (i : ℤ) * max_units_y := by
        have h1 : ((i : ℤ) + 1) < ⌈(units_y : ℚ) / (max_units_y : ℚ)⌉ := by omega
        have h2 : (((i : ℤ) + 1 : ℤ) : ℚ) < (units_y : ℚ) / (max_units_y : ℚ) :=
          Int.lt_ceil.mp h1
        rw [lt_div_iff (by exact_mod_cast (by omega : (0:ℤ) < max_units_y))] at h2
        have h3 : ((i : ℤ) + 1) * max_units_y < units_y := by exact_mod_cast h2
        nlinarith
      rw [hidx i (by omega), min_eq_right hfull]

/-- Witness for `plan_single_axis_split`: 11 × 3 units on a 6 × 6 bed split
along X into chunks 6 and 5. -/
theorem plan_single_axis_split_witness :
    ∃ chunks : List ℤ, optimize_baseplate_layout 11 3 6 6
        = some (chunks.map (fun x => (x, (3 : ℤ)))) ∧
      (chunks.length : ℤ) = ⌈((11 : ℤ) : ℚ) / ((6 : ℤ) : ℚ)⌉ ∧
      chunks.sum = 11 ∧
      (∀ i : ℕ, i < chunks.length →
        chunks[i]? = some (min (11 - (i : ℤ) * 6) 6)) ∧
      (∀ i : ℕ, i + 1 < chunks.length → chunks[i]? = some 6) :=
  (plan_single_axis_split 11 3 6 6 (by norm_num) (by norm_num)).1
    (by norm_num) (by norm_num)

lemma flatMap_singleton_eq_map {α β : Type} (f : α → β) (l : List α) :
    (l.flatMap fun x => [f x]) = l.map f := by
  induction l with
  | nil => rfl
  | cons a t ih => simp [List.flatMap_cons, ih]

/-- Claim C6 (bounded exact tiling): on every input handled by strategies 2, 3
or 4 (unit counts at least 1 per axis, bed capacity at least 1 per axis, not
the single-plate case), the emitted plates form a grid: a list of column
widths and a list of row heights whose row-major pairing is exactly the
emitted plate list, every width in `[1, maxUnitsX]`, every height in
`[1, maxUnitsY]`, the widths of any one row summing to `unitsX` and the
heights of any one column summing to `unitsY` — no overlap, no omission. -/
theorem plan_bounded_exact_tiling (units_x units_y max_units_x max_units_y : ℤ)
    (hmx : 1 ≤ max_units_x) (hmy : 1 ≤ max_units_y)
    (hux : 1 ≤ units_x) (huy : 1 ≤ units_y)
    (htier : ¬(units_x ≤ max_units_x ∧ units_y ≤ max_units_y)) :
    ∃ widths heights : List ℤ,
      optimize_baseplate_layout units_x units_y max_units_x max_units_y
        = some (heights.flatMap (fun hgt => widths.map (fun w => (w, hgt)))) ∧
      (∀ w ∈ widths, 1 ≤ w ∧ w ≤ max_units_x) ∧
      (∀ hgt ∈ heights, 1 ≤ hgt ∧ hgt ≤ max_units_y) ∧
      widths.sum = units_x ∧ heights.sum = units_y := by
  rcases le_or_lt units_y max_units_y with huy2 | huy2
  · -- strategy 2: Y fits, X must overflow
    have hxx : max_units_x < units_x := by
      by_contra hcon
      exact htier ⟨by omega, huy2⟩
    obtain ⟨l, heq, hsum, hlen, hidx, hmem⟩ :=
      greedy_split_spec max_units_x hmx units_x.toNat units_x (by omega)
        (by rw [Int.toNat_of_nonneg (by omega : (0:ℤ) ≤ units_x)])
    refine ⟨l, [units_y], ?_, hmem, ?_, hsum, by simp⟩
    · rw [optimize_baseplate_layout, if_neg (by omega), if_pos huy2, heq]
      simp
    · intro hgt hh
      simp only [List.mem_singleton] at hh
      subst hh
      exact ⟨huy, huy2⟩
  · rcases le_or_lt units_x max_units_x with hux2 | hux2
    · -- strategy 3: X fits, Y overflows
      obtain ⟨l, heq, hsum, hlen, hidx, hmem⟩ :=
        greedy_split_spec max_units_y hmy units_y.toNat units_y (by omega)
          (by rw [Int.toNat_of_nonneg (by omega : (0:ℤ) ≤ units_y)])
      refine ⟨[units_x], l, ?_, ?_, hmem, by simp, hsum⟩
      · rw [optimize_baseplate_layout, if_neg (by omega), if_neg (by omega),
          if_pos hux2, heq]
        simp only [Option.map_some', Option.some.injEq]
        exact (flatMap_singleton_eq_map _ _).symm
      · intro w hw
        simp only [List.mem_singleton] at hw
        subst hw
        exact ⟨hux, hux2⟩
    · -- strategy 4: neither axis fits
      refine ⟨(List.range (⌈(units_x : ℚ) / (max_units_x : ℚ)⌉.toNat)).map
          (fun (col : ℕ) => units_x.fdiv ⌈(units_x : ℚ) / (max_units_x : ℚ)⌉
            + (if (col : ℤ) < units_x.fmod ⌈(units_x : ℚ) / (max_units_x : ℚ)⌉
               then 1 else 0)),
        (List.range (⌈(units_y : ℚ) / (max_units_y : ℚ)⌉.toNat)).map
          (fun (row : ℕ) => units_y.fdiv ⌈(units_y : ℚ) / (max_units_y : ℚ)⌉
            + (if (row : ℤ) < units_y.fmod ⌈(units_y : ℚ) / (max_units_y : ℚ)⌉
               then 1 else 0)), ?_, ?_, ?_, ?_, ?_⟩
      · rw [optimize_tier4 hmx hmy hux2 huy2]
        simp [List.flatMap_map, List.map_map, Function.comp_def]
      · intro w hw
        simp only [List.mem_map, List.mem_range] at hw
        obtain ⟨c, hc, hcw⟩ := hw
        subst hcw
        exact even_split_piece_bounds hmx hux2 (c : ℤ) (by exact_mod_cast Nat.zero_le c)
      · intro hgt hh
        simp only [List.mem_map, List.mem_range] at hh
        obtain ⟨r, hr, hrh⟩ := hh
        subst hrh
        exact even_split_piece_bounds hmy huy2 (r : ℤ) (by exact_mod_cast Nat.zero_le r)
      · apply even_split_sum
        have := one_le_ceil_div (by omega : (0:ℤ) < max_units_x)
          (by omega : (0:ℤ) < units_x)
        omega
      · apply even_split_sum
        have := one_le_ceil_div (by omega : (0:ℤ) < max_units_y)
          (by omega : (0:ℤ) < units_y)
        omega

/-- Witness for `plan_bounded_exact_tiling` at units 11 × 7 on a 6 × 6 bed. -/
theorem plan_bounded_exact_tiling_witness :
    ∃ widths heights : List ℤ,
      optimize_baseplate_layout 11 7 6 6
        = some (heights.flatMap (fun hgt => widths.map (fun w => (w, hgt)))) ∧
      (∀ w ∈ widths, 1 ≤ w ∧ w ≤ (6 : ℤ)) ∧
      (∀ hgt ∈ heights, 1 ≤ hgt ∧ hgt ≤ (6 : ℤ)) ∧
      widths.sum = 11 ∧ heights.sum = 7 :=
  plan_bounded_exact_tiling 11 7 6 6 (by norm_num) (by norm_num) (by norm_num)
    (by norm_num) (by norm_num)

/-! ### Helper lemmas about the gap filler -/

/-- Unfolding of `calculate_spacer_dimensions` when neither division raises. -/
lemma calculate_spacer_dimensions_eq (gap length max_length max_aspect : ℚ)
    (hm : max_length ≠ 0) (hga : gap * max_aspect ≠ 0) :
    calculate_spacer_dimensions gap length max_length max_aspect =
      (if max ⌈length / max_length⌉ ⌈length / (gap * max_aspect)⌉ = 1 then
        some [(gap, length)]
      else if max ⌈length / max_length⌉ ⌈length / (gap * max_aspect)⌉ = 0 then none
      else some (List.replicate
          (max ⌈length / max_length⌉ ⌈length / (gap * max_aspect)⌉).toNat
          (gap, length
            / ((max ⌈length / max_length⌉ ⌈length / (gap * max_aspect)⌉ : ℤ) : ℚ)))) := by
  simp only [calculate_spacer_dimensions, if_neg hm, if_neg hga]

/-- What `calculate_spacer_dimensions` guarantees on its documented domain
(all four arguments positive): it succeeds, the piece lengths sum exactly to
`length`, and every piece has width `gap` and positive length at most
`max_length` and at most `gap * max_aspect`. -/
lemma calculate_spacer_dimensions_spec (gap length max_length max_aspect : ℚ)
    (hg : 0 < gap) (hl : 0 < length) (hm : 0 < max_length) (ha : 0 < max_aspect) :
    ∃ pieces : List (ℚ × ℚ),
      calculate_spacer_dimensions gap length max_length max_aspect = some pieces ∧
      pieces ≠ [] ∧
      (pieces.map Prod.snd).sum = length ∧
      ∀ p ∈ pieces, p.1 = gap ∧ 0 < p.2 ∧ p.2 ≤ max_length ∧ p.2 ≤ gap * max_aspect := by
  have hga : 0 < gap * max_aspect := mul_pos hg ha
  have hn1 : 1 ≤ ⌈length / max_length⌉ := by
    have h0 : (0 : ℚ) < length / max_length := div_pos hl hm
    have := Int.lt_ceil.mpr (show ((0 : ℤ) : ℚ) < length / max_length by exact_mod_cast h0)
    omega
  set np := max ⌈length / max_length⌉ ⌈length / (gap * max_aspect)⌉ with hnp
  have hnp1 : 1 ≤ np := le_trans hn1 (le_max_left _ _)
  have hll : length / max_length ≤ (np : ℚ) := by
    calc length / max_length ≤ (⌈length / max_length⌉ : ℚ) := Int.le_ceil _
    _ ≤ (np : ℚ) := by exact_mod_cast le_max_left _ _
  have hlr : length / (gap * max_aspect) ≤ (np : ℚ) := by
    calc length / (gap * max_aspect) ≤ (⌈length / (gap * max_aspect)⌉ : ℚ) := Int.le_ceil _
    _ ≤ (np : ℚ) := by exact_mod_cast le_max_right _ _
  have hle1 : length ≤ (np : ℚ) * max_length := by
    rw [div_le_iff hm] at hll
    linarith
  have hle2 : length ≤ (np : ℚ) * (gap * max_aspect) := by
    rw [div_le_iff hga] at hlr
    linarith
  rcases eq_or_lt_of_le hnp1 with h1 | h2
  · -- a single piece
    refine ⟨[(gap, length)], ?_, by simp, by simp, ?_⟩
    · rw [calculate_spacer_dimensions_eq gap length max_length max_aspect
        (ne_of_gt hm) (ne_of_gt hga), ← hnp, if_pos h1.symm]
    · intro p hp
      simp only [List.mem_singleton] at hp
      subst hp
      rw [← h1] at hle1 hle2
      push_cast at hle1 hle2
      exact ⟨rfl, hl, by linarith, by linarith⟩
  · -- an equal split into `np` pieces
    have hnpq : (0 : ℚ) < (np : ℚ) := by exact_mod_cast (by omega : (0 : ℤ) < np)
    refine ⟨List.replicate np.toNat (gap, length / (np : ℚ)), ?_, ?_, ?_, ?_⟩
    · rw [calculate_spacer_dimensions_eq gap length max_length max_aspect
        (ne_of_gt hm) (ne_of_gt hga), ← hnp, if_neg (by omega), if_neg (by omega)]
    · have : np.toNat ≠ 0 := by omega
      simp [List.replicate_eq_nil_iff, this]
    · rw [List.map_replicate, List.sum_replicate, nsmul_eq_mul]
      have hcast : ((np.toNat : ℕ) : ℚ) = (np : ℚ) := by
        exact_mod_cast congrArg (fun z : ℤ => (z : ℚ)) (Int.toNat_of_nonneg (by omega))
      rw [hcast, mul_comm, div_mul_cancel₀ _ (ne_of_gt hnpq)]
    · intro p hp
      have hp' := List.eq_of_mem_replicate hp
      subst hp'
      refine ⟨rfl, div_pos hl hnpq, ?_, ?_⟩
      · rw [div_le_iff hnpq]
        linarith [hle1]
      · rw [div_le_iff hnpq]
        linarith [hle2]

/-- Spec scenario 3: `Fill(32, 260, 150, 5)` gives two pieces of (32, 130). -/
lemma scenario3_eval :
    calculate_spacer_dimensions 32 260 150 5 = some [(32, 130), (32, 130)] := by
  have h1 : ⌈(260 : ℚ) / 150⌉ = 2 := by rw [Int.ceil_eq_iff]; norm_num
  have h2 : ⌈(260 : ℚ) / ((32 : ℚ) * 5)⌉ = 2 := by rw [Int.ceil_eq_iff]; norm_num
  rw [calculate_spacer_dimensions_eq 32 260 150 5 (by norm_num) (by norm_num), h1, h2]
  norm_num [List.replicate]

/-- Claim C4 (gap-filler piece count and equal division): on positive inputs the
piece count is `numPieces = max ⌈length/maxLength⌉ ⌈length/(gap·maxAspect)⌉ ≥ 1`;
one piece means the single spec `(gap, length)` unchanged, more pieces means
exactly `numPieces` identical specs `(gap, length/numPieces)`; in particular
`Fill(32, 260, 150, 5)` returns two pieces of (32, 130). -/
theorem fill_piece_count_equal_division (gap length max_length max_aspect : ℚ)
    (hg : 0 < gap) (hl : 0 < length) (hm : 0 < max_length) (ha : 0 < max_aspect) :
    (1 ≤ max ⌈length / max_length⌉ ⌈length / (gap * max_aspect)⌉ ∧
     (max ⌈length / max_length⌉ ⌈length / (gap * max_aspect)⌉ = 1 →
       calculate_spacer_dimensions gap length max_length max_aspect
         = some [(gap, length)]) ∧
     (1 < max ⌈length / max_length⌉ ⌈length / (gap * max_aspect)⌉ →
       calculate_spacer_dimensions gap length max_length max_aspect
         = some (List.replicate
             (max ⌈length / max_length⌉ ⌈length / (gap * max_aspect)⌉).toNat
             (gap, length
               / ((max ⌈length / max_length⌉ ⌈length / (gap * max_aspect)⌉ : ℤ) : ℚ))))) ∧
    calculate_spacer_dimensions 32 260 150 5 = some [(32, 130), (32, 130)] := by
  refine ⟨⟨?_, ?_, ?_⟩, scenario3_eval⟩
  · have h0 : (0 : ℚ) < length / max_length := div_pos hl hm
    have := Int.lt_ceil.mpr (show ((0 : ℤ) : ℚ) < length / max_length by exact_mod_cast h0)
    have := le_max_left ⌈length / max_length⌉ ⌈length / (gap * max_aspect)⌉
    omega
  · intro h1
    rw [calculate_spacer_dimensions_eq gap length max_length max_aspect
      (ne_of_gt hm) (ne_of_gt (mul_pos hg ha)), if_pos h1]
  · intro h2
    rw [calculate_spacer_dimensions_eq gap length max_length max_aspect
      (ne_of_gt hm) (ne_of_gt (mul_pos hg ha)), if_neg (by omega), if_neg (by omega)]

/-- Witness for `fill_piece_count_equal_division`: spec scenario 3, obtained
by applying the theorem at `(32, 260, 150, 5)`. -/
theorem fill_piece_count_equal_division_witness :
    calculate_spacer_dimensions 32 260 150 5 = some [(32, 130), (32, 130)] :=
  (fill_piece_count_equal_division 32 260 150 5 (by norm_num) (by norm_num)
    (by norm_num) (by norm_num)).2

/-- Claim C5, counterexample: the claim also bounds the inverted aspect ratio
`max(width, depth) / min(width, depth)`, but the code only constrains
length against `gap * maxAspect`: `Fill(gap = 100, length = 10,
maxLength = 150, maxAspect = 5)` keeps the single piece (100, 10), whose
max/min aspect ratio is 10 > 5. -/
theorem fill_max_over_min_aspect_fails :
    calculate_spacer_dimensions 100 10 150 5 = some [(100, 10)] ∧
    ¬(max (100 : ℚ) 10 / min (100 : ℚ) 10 ≤ 5) := by
  constructor
  · have h1 : ⌈(10 : ℚ) / 150⌉ = 1 := by rw [Int.ceil_eq_iff]; norm_num
    have h2 : ⌈(10 : ℚ) / ((100 : ℚ) * 5)⌉ = 1 := by rw [Int.ceil_eq_iff]; norm_num
    rw [calculate_spacer_dimensions_eq 100 10 150 5 (by norm_num) (by norm_num), h1, h2]
    norm_num
  · norm_num

/-- Claim C5, amended (gap-filler postconditions): on positive inputs the piece
lengths sum exactly to `length` (exactly, since the model is exact rational
arithmetic), each piece length is at most `maxLength`, and each piece's
*length-to-gap* ratio `depth / width` is at most `maxAspectRatio`.  (The
claim's symmetric bound on `max(width, depth) / min(width, depth)` does not
hold — see `fill_max_over_min_aspect_fails` — because the code never
constrains the gap against the piece length.) -/
theorem fill_postconditions_length_over_gap (gap length max_length max_aspect : ℚ)
    (hg : 0 < gap) (hl : 0 < length) (hm : 0 < max_length) (ha : 0 < max_aspect) :
    ∃ pieces : List (ℚ × ℚ),
      calculate_spacer_dimensions gap length max_length max_aspect = some pieces ∧
      (pieces.map Prod.snd).sum = length ∧
      ∀ p ∈ pieces, p.2 ≤ max_length ∧ p.2 / p.1 ≤ max_aspect := by
  obtain ⟨pieces, heq, hne, hsum, hmem⟩ :=
    calculate_spacer_dimensions_spec gap length max_length max_aspect hg hl hm ha
  refine ⟨pieces, heq, hsum, ?_⟩
  intro p hp
  obtain ⟨h1, h2, h3, h4⟩ := hmem p hp
  refine ⟨h3, ?_⟩
  rw [h1, div_le_iff hg]
  linarith

/-- Witness for `fill_postconditions_length_over_gap` at spec scenario 3's
inputs. -/
theorem fill_postconditions_length_over_gap_witness :
    ∃ pieces : List (ℚ × ℚ),
      calculate_spacer_dimensions 32 260 150 5 = some pieces ∧
      (pieces.map Prod.snd).sum = 260 ∧
      ∀ p ∈ pieces, p.2 ≤ 150 ∧ p.2 / p.1 ≤ 5 :=
  fill_postconditions_length_over_gap 32 260 150 5 (by norm_num) (by norm_num)
    (by norm_num) (by norm_num)

/-! ### Totality of the layout on beds of at least one unit per axis -/

/-- When the bed holds at least one unit in each axis, every strategy of
`_optimize_baseplate_layout` terminates and returns a plate list, whatever
the (possibly zero or negative) unit counts. -/
lemma optimize_layout_total (units_x units_y max_units_x max_units_y : ℤ)
    (hmx : 1 ≤ max_units_x) (hmy : 1 ≤ max_units_y) :
    ∃ plates, optimize_baseplate_layout units_x units_y max_units_x max_units_y
      = some plates := by
  by_cases h1 : units_x ≤ max_units_x ∧ units_y ≤ max_units_y
  · exact ⟨_, optimize_tier1 h1.1 h1.2⟩
  by_cases h2 : units_y ≤ max_units_y
  · obtain ⟨l, heq, -, -, -, -⟩ :=
      greedy_split_spec max_units_x hmx units_x.toNat units_x
        (by omega) (by rw [Int.toNat_of_nonneg (by omega : (0:ℤ) ≤ units_x)])
    exact ⟨_, by rw [optimize_baseplate_layout, if_neg h1, if_pos h2, heq]; rfl⟩
  by_cases h3 : units_x ≤ max_units_x
  · obtain ⟨l, heq, -, -, -, -⟩ :=
      greedy_split_spec max_units_y hmy units_y.toNat units_y
        (by omega) (by rw [Int.toNat_of_nonneg (by omega : (0:ℤ) ≤ units_y)])
    exact ⟨_, by
      rw [optimize_baseplate_layout, if_neg h1, if_neg h2, if_pos h3, heq]; rfl⟩
  · exact ⟨_, optimize_tier4 hmx hmy (by omega) (by omega)⟩

/-- Totality: `calculate_baseplates` succeeds whenever the unit size is positive and the
bed measures at least one unit per axis; the layout carries the floor unit
counts and the sub-unit gaps. -/
lemma calculate_baseplates_some
    {drawer_width drawer_depth bed_width bed_depth unit_size : ℚ}
    (hu : 0 < unit_size) (hbw : unit_size ≤ bed_width) (hbd : unit_size ≤ bed_depth) :
    ∃ plates, calculate_baseplates drawer_width drawer_depth bed_width bed_depth unit_size
      = some ⟨plates, drawer_width - ⌊drawer_width / unit_size⌋ * unit_size,
          drawer_depth - ⌊drawer_depth / unit_size⌋ * unit_size,
          ⌊drawer_width / unit_size⌋, ⌊drawer_depth / unit_size⌋⟩ := by
  have hmx : 1 ≤ ⌊bed_width / unit_size⌋ := by
    apply Int.le_floor.mpr
    push_cast
    rw [le_div_iff hu]
    linarith
  have hmy : 1 ≤ ⌊bed_depth / unit_size⌋ := by
    apply Int.le_floor.mpr
    push_cast
    rw [le_div_iff hu]
    linarith
  obtain ⟨plates, hp⟩ := optimize_layout_total ⌊drawer_width / unit_size⌋
    ⌊drawer_depth / unit_size⌋ ⌊bed_width / unit_size⌋ ⌊bed_depth / unit_size⌋ hmx hmy
  refine ⟨plates, ?_⟩
  rw [calculate_baseplates_eq (ne_of_gt hu), hp]
  rfl

/-- Claim C7, counterexample: all five inputs of `Plan(100, 100, 10, 10, 42)`
are strictly positive, yet the computation fails: the bed holds zero units
per axis, units 2 × 2 reach strategy 4, and `ceil(2 / 0)` raises
`ZeroDivisionError` (modelled as `none`).  (With a drawer of 100 × 10 the
same bed instead makes strategy 2's `while` loop spin forever — see
`greedy_split_nonpos_max`.) -/
theorem plan_not_total_tiny_bed : calculate_baseplates 100 100 10 10 42 = none := by
  have h1 : ⌊(100 : ℚ) / 42⌋ = 2 := by rw [Int.floor_eq_iff]; norm_num
  have h2 : ⌊(10 : ℚ) / 42⌋ = 0 := by rw [Int.floor_eq_iff]; norm_num
  have h3 : ⌈((2 : ℤ) : ℚ) / ((0 : ℤ) : ℚ)⌉ = 0 := by push_cast; norm_num
  rw [calculate_baseplates_eq (by norm_num), h1, h2]
  simp only [optimize_baseplate_layout, h3]
  norm_num

/-- Claim C7, amended (totality): the planner terminates and returns a result
for every input with positive unit size and a bed of at least one grid unit
per axis (the restriction the counterexample forces; the drawer dimensions
remain unrestricted). -/
theorem plan_total_on_unit_bed
    (drawer_width drawer_depth bed_width bed_depth unit_size : ℚ)
    (hu : 0 < unit_size) (hbw : unit_size ≤ bed_width) (hbd : unit_size ≤ bed_depth) :
    ∃ layout, calculate_baseplates drawer_width drawer_depth bed_width bed_depth unit_size
      = some layout := by
  obtain ⟨plates, hp⟩ := calculate_baseplates_some hu hbw hbd
  exact ⟨_, hp⟩

/-- Witness for `plan_total_on_unit_bed` at spec scenario 1's inputs. -/
theorem plan_total_on_unit_bed_witness :
    ∃ layout, calculate_baseplates 500 300 256 256 42 = some layout :=
  plan_total_on_unit_bed 500 300 256 256 42 (by norm_num) (by norm_num) (by norm_num)

/-- Claim C8, counterexample: a negative drawer width is not rejected — there
is no validation anywhere in the planner.  `Plan(-100, 100, 256, 256, 42)`
returns normally with the degenerate plate spec (-3, 2) (the floor division
`-100 // 42 = -3`) instead of raising any error. -/
theorem plan_accepts_negative_width :
    calculate_baseplates (-100) 100 256 256 42 = some ⟨[(-3, 2)], 26, 16, -3, 2⟩ := by
  have h1 : ⌊(-100 : ℚ) / 42⌋ = -3 := by rw [Int.floor_eq_iff]; norm_num
  have h2 : ⌊(100 : ℚ) / 42⌋ = 2 := by rw [Int.floor_eq_iff]; norm_num
  have h3 : ⌊(256 : ℚ) / 42⌋ = 6 := by rw [Int.floor_eq_iff]; norm_num
  rw [calculate_baseplates_eq (by norm_num), h1, h2, h3,
    optimize_tier1 (by norm_num) (by norm_num)]
  simp only [Option.map_some', Option.some.injEq, Layout.mk.injEq]
  norm_num

/-- Claim C8, amended (no input validation): the planner raises no
`InvalidDimension` error.  A non-positive drawer width flows through the
floor division and — whenever the depth fits the bed — produces a normal
single-plate layout whose X unit count is `⌊drawerWidth/unit⌋ ≤ 0`, rather
than failing fast with no output. -/
theorem plan_no_dimension_validation
    (drawer_width drawer_depth bed_width bed_depth unit_size : ℚ)
    (hu : 0 < unit_size) (hdw : drawer_width ≤ 0) (hbw : 0 ≤ bed_width)
    (hfit : ⌊drawer_depth / unit_size⌋ ≤ ⌊bed_depth / unit_size⌋) :
    calculate_baseplates drawer_width drawer_depth bed_width bed_depth unit_size
      = some ⟨[(⌊drawer_width / unit_size⌋, ⌊drawer_depth / unit_size⌋)],
          drawer_width - ⌊drawer_width / unit_size⌋ * unit_size,
          drawer_depth - ⌊drawer_depth / unit_size⌋ * unit_size,
          ⌊drawer_width / unit_size⌋, ⌊drawer_depth / unit_size⌋⟩ ∧
    ⌊drawer_width / unit_size⌋ ≤ 0 := by
  have h0 : drawer_width / unit_size ≤ 0 := div_nonpos_iff.mpr (Or.inr ⟨hdw, hu.le⟩)
  have hux : ⌊drawer_width / unit_size⌋ ≤ 0 := by
    have := Int.floor_le_floor h0
    rwa [Int.floor_zero] at this
  have hmx : 0 ≤ ⌊bed_width / unit_size⌋ :=
    Int.floor_nonneg.mpr (div_nonneg hbw hu.le)
  refine ⟨?_, hux⟩
  rw [calculate_baseplates_eq (ne_of_gt hu), optimize_tier1 (by omega) hfit]
  rfl

/-- Witness for `plan_no_dimension_validation` at `(-100, 100, 256, 256, 42)`. -/
theorem plan_no_dimension_validation_witness :
    calculate_baseplates (-100) 100 256 256 42
      = some ⟨[(⌊(-100 : ℚ) / 42⌋, ⌊(100 : ℚ) / 42⌋)],
          (-100) - ⌊(-100 : ℚ) / 42⌋ * 42, 100 - ⌊(100 : ℚ) / 42⌋ * 42,
          ⌊(-100 : ℚ) / 42⌋, ⌊(100 : ℚ) / 42⌋⟩ ∧
    ⌊(-100 : ℚ) / 42⌋ ≤ 0 :=
  plan_no_dimension_validation (-100) 100 256 256 42 (by norm_num) (by norm_num)
    (by norm_num)
    (by
      have h2 : ⌊(100 : ℚ) / 42⌋ = 2 := by rw [Int.floor_eq_iff]; norm_num
      have h3 : ⌊(256 : ℚ) / 42⌋ = 6 := by rw [Int.floor_eq_iff]; norm_num
      rw [h2, h3]; norm_num)

/-! ### The orchestrator's spacer phase -/

/-- Behaviour of the spacer phase of `generate_drawer_files` whenever every
computation it reaches succeeds (positive unit size, bed at least one unit
per axis, positive drawer width, and at least one unit of tiled depth in
case the X gap is significant): the X-direction gap is filled over the tiled
depth `unitsY * unitSize` only, the Y-direction gap over the full drawer
width, and a gap of at most 0.5 mm contributes no pieces for its axis. -/
lemma generate_drawer_files_spec
    (drawer_width drawer_depth bed_width bed_depth unit_size : ℚ)
    (hu : 0 < unit_size) (hbw : unit_size ≤ bed_width) (hbd : unit_size ≤ bed_depth)
    (hdw : 0 < drawer_width)
    (hxlen : 1/2 < drawer_width - ⌊drawer_width / unit_size⌋ * unit_size →
      1 ≤ ⌊drawer_depth / unit_size⌋) :
    ∃ files, generate_drawer_files drawer_width drawer_depth bed_width bed_depth unit_size
        = some files ∧
      (drawer_width - ⌊drawer_width / unit_size⌋ * unit_size ≤ 1/2 →
        files.x_spacers = []) ∧
      (drawer_depth - ⌊drawer_depth / unit_size⌋ * unit_size ≤ 1/2 →
        files.y_spacers = []) ∧
      (1/2 < drawer_width - ⌊drawer_width / unit_size⌋ * unit_size →
        (files.x_spacers.map Prod.snd).sum
            = (⌊drawer_depth / unit_size⌋ : ℚ) * unit_size ∧
        ∀ p ∈ files.x_spacers,
          p.1 = drawer_width - ⌊drawer_width / unit_size⌋ * unit_size) ∧
      (1/2 < drawer_depth - ⌊drawer_depth / unit_size⌋ * unit_size →
        (files.y_spacers.map Prod.fst).sum = drawer_width ∧
        ∀ p ∈ files.y_spacers,
          p.2 = drawer_depth - ⌊drawer_depth / unit_size⌋ * unit_size) := by
  obtain ⟨plates, hlay⟩ := @calculate_baseplates_some drawer_width drawer_depth
    bed_width bed_depth unit_size hu hbw hbd
  have hx : ∃ x_dims,
      (if 1/2 < drawer_width - ⌊drawer_width / unit_size⌋ * unit_size then
        calculate_spacer_dimensions
          (drawer_width - ⌊drawer_width / unit_size⌋ * unit_size)
          ((⌊drawer_depth / unit_size⌋ : ℚ) * unit_size)
      else some []) = some x_dims ∧
      (drawer_width - ⌊drawer_width / unit_size⌋ * unit_size ≤ 1/2 → x_dims = []) ∧
      (1/2 < drawer_width - ⌊drawer_width / unit_size⌋ * unit_size →
        (x_dims.map Prod.snd).sum = (⌊drawer_depth / unit_size⌋ : ℚ) * unit_size ∧
        ∀ p ∈ x_dims,
          p.1 = drawer_width - ⌊drawer_width / unit_size⌋ * unit_size) := by
    rcases le_or_lt (drawer_width - ⌊drawer_width / unit_size⌋ * unit_size) (1/2 : ℚ)
      with h | h
    · exact ⟨[], by rw [if_neg (not_lt.mpr h)], fun _ => rfl,
        fun hc => absurd hc (not_lt.mpr h)⟩
    · have hg0 : 0 < drawer_width - ⌊drawer_width / unit_size⌋ * unit_size :=
        lt_trans (by norm_num) h
      have huy := hxlen h
      have hlen0 : 0 < (⌊drawer_depth / unit_size⌋ : ℚ) * unit_size :=
        mul_pos (by exact_mod_cast (by omega : (0:ℤ) < ⌊drawer_depth / unit_size⌋)) hu
      obtain ⟨pieces, hp, -, hsum, hmem⟩ :=
        calculate_spacer_dimensions_spec _ _ 150 5 hg0 hlen0 (by norm_num) (by norm_num)
      exact ⟨pieces, by rw [if_pos h, hp], fun hc => absurd h (not_lt.mpr hc),
        fun _ => ⟨hsum, fun p hp' => (hmem p hp').1⟩⟩
  have hy : ∃ y_dims,
      (if 1/2 < drawer_depth - ⌊drawer_depth / unit_size⌋ * unit_size then
        calculate_spacer_dimensions
          (drawer_depth - ⌊drawer_depth / unit_size⌋ * unit_size) drawer_width
      else some []) = some y_dims ∧
      (drawer_depth - ⌊drawer_depth / unit_size⌋ * unit_size ≤ 1/2 → y_dims = []) ∧
      (1/2 < drawer_depth - ⌊drawer_depth / unit_size⌋ * unit_size →
        (y_dims.map Prod.snd).sum = drawer_width ∧
        ∀ p ∈ y_dims,
          p.1 = drawer_depth - ⌊drawer_depth / unit_size⌋ * unit_size) := by
    rcases le_or_lt (drawer_depth - ⌊drawer_depth / unit_size⌋ * unit_size) (1/2 : ℚ)
      with h | h
    · exact ⟨[], by rw [if_neg (not_lt.mpr h)], fun _ => rfl,
        fun hc => absurd hc (not_lt.mpr h)⟩
    · have hg0 : 0 < drawer_depth - ⌊drawer_depth / unit_size⌋ * unit_size :=
        lt_trans (by norm_num) h
      obtain ⟨pieces, hp, -, hsum, hmem⟩ :=
        calculate_spacer_dimensions_spec _ _ 150 5 hg0 hdw (by norm_num) (by norm_num)
      exact ⟨pieces, by rw [if_pos h, hp], fun hc => absurd h (not_lt.mpr hc),
        fun _ => ⟨hsum, fun p hp' => (hmem p hp').1⟩⟩
  obtain ⟨x_dims, hxd, hxd0, hxdP⟩ := hx
  obtain ⟨y_dims, hyd, hyd0, hydP⟩ := hy
  refine ⟨⟨plates, x_dims, y_dims.map (fun p => (p.2, p.1))⟩, ?_, ?_, ?_, ?_, ?_⟩
  · simp only [generate_drawer_files, hlay, hxd, hyd]
  · exact hxd0
  · intro h
    have := hyd0 h
    simp only [this, List.map_nil]
  · exact hxdP
  · intro h
    obtain ⟨hsum, hmem⟩ := hydP h
    constructor
    · rw [List.map_map]
      exact hsum
    · intro p hp
      simp only [List.mem_map] at hp
      obtain ⟨q, hq, hqp⟩ := hp
      subst hqp
      exact hmem q hq

/-- Claim C9, counterexample: `Fill` itself does not return an empty sequence
for a zero gap — `gap * maxAspectRatio = 0` makes
`ceil(length / (gap * maxAspectRatio))` raise `ZeroDivisionError`
(modelled as `none`). -/
theorem fill_zero_gap_division_error :
    calculate_spacer_dimensions 0 50 = none := by
  norm_num [calculate_spacer_dimensions]

/-- Claim C9, amended (zero gap yields no filler pieces, at the orchestrator):
calling `Fill` itself with a zero gap raises `ZeroDivisionError`; the empty
filler sequence for a zero gap arises in `generate_drawer_files`, whose
strict 0.5 mm threshold skips the axis, so a drawer whose width is an exact
multiple of the unit size gets no X-direction filler pieces. -/
theorem orchestrator_zero_gap_skips_filler
    (drawer_width drawer_depth bed_width bed_depth unit_size : ℚ)
    (hu : 0 < unit_size) (hbw : unit_size ≤ bed_width) (hbd : unit_size ≤ bed_depth)
    (hdw : 0 < drawer_width)
    (hgap : drawer_width - ⌊drawer_width / unit_size⌋ * unit_size = 0) :
    ∃ files, generate_drawer_files drawer_width drawer_depth bed_width bed_depth unit_size
        = some files ∧ files.x_spacers = [] := by
  obtain ⟨files, heq, hx0, -, -, -⟩ :=
    generate_drawer_files_spec drawer_width drawer_depth bed_width bed_depth unit_size
      hu hbw hbd hdw (by intro h; rw [hgap] at h; norm_num at h)
  exact ⟨files, heq, hx0 (by rw [hgap]; norm_num)⟩

/-- Witness for `orchestrator_zero_gap_skips_filler`: an 84 mm wide drawer is
exactly two 42 mm units, so no X-direction spacers are produced. -/
theorem orchestrator_zero_gap_skips_filler_witness :
    ∃ files, generate_drawer_files 84 100 256 256 42 = some files ∧
      files.x_spacers = [] :=
  orchestrator_zero_gap_skips_filler 84 100 256 256 42 (by norm_num) (by norm_num)
    (by norm_num) (by norm_num)
    (by
      have h : ⌊(84 : ℚ) / 42⌋ = 2 := by rw [Int.floor_eq_iff]; norm_num
      rw [h]; norm_num)

/-- Claim C10 (orchestrator filler-length asymmetry): whenever an axis gap
exceeds 0.5 mm, the X-direction gap is filled over length
`unitsY * unitSize` (only the depth actually tiled by plates, of total piece
length `⌊drawerDepth/unit⌋ * unit = drawerDepth - gapY`), whereas the
Y-direction gap is filled over the full `drawerWidth` (total piece length
`drawerWidth = unitsX * unit + gapX`); hence when both gaps are significant
the `gapX × gapY` corner is spanned only by the Y-direction strip.  A gap of
exactly 0.5 mm or less yields no pieces for its axis (strict comparison). -/
theorem orchestrator_filler_length_asymmetry
    (drawer_width drawer_depth bed_width bed_depth unit_size : ℚ)
    (hu : 0 < unit_size) (hbw : unit_size ≤ bed_width) (hbd : unit_size ≤ bed_depth)
    (hdw : 0 < drawer_width) (hdd : unit_size ≤ drawer_depth) :
    ∃ files, generate_drawer_files drawer_width drawer_depth bed_width bed_depth unit_size
        = some files ∧
      (drawer_width - ⌊drawer_width / unit_size⌋ * unit_size ≤ 1/2 →
        files.x_spacers = []) ∧
      (drawer_depth - ⌊drawer_depth / unit_size⌋ * unit_size ≤ 1/2 →
        files.y_spacers = []) ∧
      (1/2 < drawer_width - ⌊drawer_width / unit_size⌋ * unit_size →
        (files.x_spacers.map Prod.snd).sum
            = (⌊drawer_depth / unit_size⌋ : ℚ) * unit_size ∧
        ∀ p ∈ files.x_spacers,
          p.1 = drawer_width - ⌊drawer_width / unit_size⌋ * unit_size) ∧
      (1/2 < drawer_depth - ⌊drawer_depth / unit_size⌋ * unit_size →
        (files.y_spacers.map Prod.fst).sum = drawer_width ∧
        ∀ p ∈ files.y_spacers,
          p.2 = drawer_depth - ⌊drawer_depth / unit_size⌋ * unit_size) := by
  apply generate_drawer_files_spec drawer_width drawer_depth bed_width bed_depth unit_size
    hu hbw hbd hdw
  intro h
  apply Int.le_floor.mpr
  push_cast
  rw [le_div_iff hu]
  linarith

/-- Witness for `orchestrator_filler_length_asymmetry` at a 100 × 100 drawer
(gaps 16 mm on both axes). -/
theorem orchestrator_filler_length_asymmetry_witness :
    ∃ files, generate_drawer_files 100 100 256 256 42 = some files ∧
      ((100 : ℚ) - ⌊(100 : ℚ) / 42⌋ * 42 ≤ 1/2 → files.x_spacers = []) ∧
      ((100 : ℚ) - ⌊(100 : ℚ) / 42⌋ * 42 ≤ 1/2 → files.y_spacers = []) ∧
      (1/2 < (100 : ℚ) - ⌊(100 : ℚ) / 42⌋ * 42 →
        (files.x_spacers.map Prod.snd).sum = (⌊(100 : ℚ) / 42⌋ : ℚ) * 42 ∧
        ∀ p ∈ files.x_spacers, p.1 = (100 : ℚ) - ⌊(100 : ℚ) / 42⌋ * 42) ∧
      (1/2 < (100 : ℚ) - ⌊(100 : ℚ) / 42⌋ * 42 →
        (files.y_spacers.map Prod.fst).sum = 100 ∧
        ∀ p ∈ files.y_spacers, p.2 = (100 : ℚ) - ⌊(100 : ℚ) / 42⌋ * 42) :=
  orchestrator_filler_length_asymmetry 100 100 256 256 42 (by norm_num) (by norm_num)
    (by norm_num) (by norm_num) (by norm_num)

end GridfinityDrawer
